import Mathlib

/-!
# Verification of the report-document generator (pdf_generator.py)

Shallow embedding of the core of `pdf_generator.py`:

* geometry of the three scaling/centering code paths (`render_pdf_page`,
  `render_image` with and without `max_h`, and the inline photo-grid cell
  drawing inside `generate_pdf`), over exact rationals;
* the Google-Drive URL rewriting of `extract_drive_id` / `download_file`;
* the field-alias resolution `get_val` and the date resolution for `tarikh`;
* the page-emission behaviour of `generate_pdf` (certificate page, letter
  pages, photo-grid pages), parameterised by a network oracle
  `net : String → Option (content-type × render-success)` that abstracts
  the outcome of `requests.get` on the resolved URL together with whether
  the downloaded bytes subsequently parse/decode and draw.

Python values that may be strings, `datetime` objects or `None` are
modelled by the inductive `PyVal`; Python truthiness and `str()` are
modelled explicitly.
-/

/-! ## Units and page geometry (reportlab constants, exact rationals) -/

/-- One millimetre in points: `reportlab.lib.units.mm = 72 / 2.54 / 10`. -/
def mmUnit : ℚ := 72 / 2.54 / 10

/-- A4 width in points (`210*mm`). -/
def A4w : ℚ := 210 * mmUnit

/-- A4 height in points (`297*mm`). -/
def A4h : ℚ := 297 * mmUnit

/-- Result of one draw call: the uniform scale factor, the drawn width and
height, and the position of the lower-left corner of the drawn content. -/
structure Placed where
  scale : ℚ
  dw : ℚ
  dh : ℚ
  x : ℚ
  y : ℚ
deriving Repr, DecidableEq

/-- Geometry of `render_pdf_page` (pdf_generator.py lines 80-103): given the
source page bounding-box width `w` and height `h`, fails when either is zero,
otherwise scales by `min(target_w/w, target_h/h)` with a 15 mm margin and
centres on the page. -/
def render_pdf_page (w h : ℚ) : Option Placed :=
  if w = 0 ∨ h = 0 then none
  else
    let margin := 15 * mmUnit
    let target_w := A4w - 2 * margin
    let target_h := A4h - 2 * margin
    let scale := min (target_w / w) (target_h / h)
    let final_w := w * scale
    let final_h := h * scale
    some ⟨scale, final_w, final_h, (A4w - final_w) / 2, (A4h - final_h) / 2⟩

/-- Geometry of `render_image` (pdf_generator.py lines 114-134): 20 mm margin;
line 123 is `target_h = max_h if max_h else (page_h - 2*margin)`, a Python
truthiness test, so a supplied but zero `max_h` is falsy and falls back to
the full-page height exactly like an absent one. The code first computes a
provisional `y` and then unconditionally overwrites it with
`(page_h - dh) / 2`; only the final value is modelled. -/
def render_image (iw ih : ℚ) (max_h : Option ℚ) : Placed :=
  let margin := 20 * mmUnit
  let target_w := A4w - 2 * margin
  let target_h := match max_h with
    | some v => if v ≠ 0 then v else A4h - 2 * margin
    | none => A4h - 2 * margin
  let scale := min (target_w / iw) (target_h / ih)
  let dw := iw * scale
  let dh := ih * scale
  ⟨scale, dw, dh, (A4w - dw) / 2, (A4h - dh) / 2⟩

/-- Photo-grid cell width from `generate_pdf` (`grid_w = (width - 2*margin)/2`
with `margin = 25*mm`). -/
def grid_w : ℚ := (A4w - 2 * (25 * mmUnit)) / 2

/-- Photo-grid cell height from `generate_pdf` (`grid_h = (height - 50*mm)/2`). -/
def grid_h : ℚ := (A4h - 50 * mmUnit) / 2

/-- Inline image drawing inside a grid cell (pdf_generator.py lines 321-338):
5 mm padding inside the cell, scale to fit the padded area, centre in it.
`x_pos`, `y_pos` is the lower-left corner of the cell. -/
def gridCellDraw (x_pos y_pos iw ih : ℚ) : Placed :=
  let pad := 5 * mmUnit
  let avail_w := grid_w - 2 * pad
  let avail_h := grid_h - 2 * pad
  let scale := min (avail_w / iw) (avail_h / ih)
  let dw := iw * scale
  let dh := ih * scale
  ⟨scale, dw, dh, x_pos + pad + (avail_w - dw) / 2, y_pos + pad + (avail_h - dh) / 2⟩

/-! ## URL recognition and rewriting (`extract_drive_id`, `download_file`) -/

/-- The character class `[a-zA-Z0-9_-]` of both Drive-id regexes. -/
def idChar (c : Char) : Bool := c.isAlphanum || c = '_' || c = '-'

/-- `leadEq p t` holds when the pattern `p` is an initial run of the text `t`
(character-by-character prefix test). -/
def leadEq : List Char → List Char → Bool
  | [], _ => true
  | _ :: _, [] => false
  | p :: ps, c :: cs => decide (p = c) && leadEq ps cs

/-- `re.search(r'/file/d/([a-zA-Z0-9_-]+)', url)`: scan positions left to
right; at each position try to match the literal `/file/d/` followed by a
maximal non-empty run of id characters; return the first captured run. -/
def searchFileD : List Char → Option (List Char)
  | [] => none
  | c :: rest =>
    if leadEq "/file/d/".data (c :: rest) then
      let run := ((c :: rest).drop 8).takeWhile idChar
      if run.isEmpty then searchFileD rest else some run
    else searchFileD rest

/-- `re.search(r'[?&]id=([a-zA-Z0-9_-]+)', url)`: scan for a `?` or `&`
followed by `id=` and a maximal non-empty run of id characters. -/
def searchIdQ : List Char → Option (List Char)
  | [] => none
  | c :: rest =>
    if (decide (c = '?') || decide (c = '&')) && leadEq "id=".data rest then
      let run := (rest.drop 3).takeWhile idChar
      if run.isEmpty then searchIdQ rest else some run
    else searchIdQ rest

/-- `extract_drive_id` (pdf_generator.py lines 17-30): pattern 1
(`/file/d/ID`) first, then pattern 2 (`[?&]id=ID`); `None` when neither
matches. -/
def extract_drive_id (url : String) : Option String :=
  match searchFileD url.data with
  | some run => some (String.mk run)
  | none =>
    match searchIdQ url.data with
    | some run => some (String.mk run)
    | none => none

/-- The canonical direct-download URL template of `download_file`. -/
def driveTemplate (fid : String) : String :=
  "https://drive.google.com/uc?export=download&id=" ++ fid

/-- The URL actually fetched by `download_file` (pdf_generator.py lines
37-43): `None` (no fetch at all) when the reference is shorter than 5
characters; otherwise the rewritten template URL when a Drive id is
extracted, else the reference verbatim. -/
def download_target (url : String) : Option String :=
  if url.length < 5 then none
  else some (match extract_drive_id url with
    | some fid => driveTemplate fid
    | none => url)

/-- Outcome of `download_file` for one reference, abstracting the bytes:
`none` models the `(None, None)` sentinel (non-200 status, timeout or
transport error, or the short-reference guard); `some (ctype, renders)`
models a 200 response with declared content-type `ctype` whose bytes later
parse/decode and draw successfully iff `renders`. -/
abbrev FetchRes := Option (String × Bool)

/-- `download_file` over a network oracle `net` giving the outcome of
`requests.get` on the resolved target URL. -/
def download_file (net : String → FetchRes) (url : String) : FetchRes :=
  match download_target url with
  | none => none
  | some t => net t

/-- Spec-side predicate: the reference contains the path-segment shape
`/file/d/<id>` with a non-empty id (at some position). -/
def hasShape1 : List Char → Bool
  | [] => false
  | c :: rest =>
    (leadEq "/file/d/".data (c :: rest) &&
      !(((c :: rest).drop 8).takeWhile idChar).isEmpty) || hasShape1 rest

/-- Spec-side predicate: the reference contains the query shape `?id=<id>`
(or `&id=<id>`) with a non-empty id. -/
def hasShape2 : List Char → Bool
  | [] => false
  | c :: rest =>
    ((decide (c = '?') || decide (c = '&')) && leadEq "id=".data rest &&
      !((rest.drop 3).takeWhile idChar).isEmpty) || hasShape2 rest

/-! ## Record model: Python values, truthiness, `str()`, `get_val` -/

/-- The whitespace characters stripped by Python's `str.strip()`. -/
def pySpace (c : Char) : Bool :=
  c = ' ' || c = '\t' || c = '\n' || c = '\r' || c = '\x0B' || c = '\x0C'

/-- Python `str.strip()`: drop leading and trailing whitespace. -/
def pyStrip (s : String) : String :=
  String.mk (((s.data.dropWhile pySpace).reverse.dropWhile pySpace).reverse)

/-- Split a character list at every character satisfying `p`, keeping empty
segments (the semantics of `re.split` on a single-character class). -/
def splitChars (p : Char → Bool) : List Char → List (List Char)
  | [] => [[]]
  | c :: rest =>
    match splitChars p rest with
    | [] => [[]]
    | seg :: segs => if p c then [] :: seg :: segs else (c :: seg) :: segs

/-- `re.split` on a single-character class over a string. -/
def pySplit (p : Char → Bool) (s : String) : List String :=
  (splitChars p s.data).map String.mk

/-- A field value of the input record: absent/`None`, a string, or a
`datetime.date`-like value (anything with `strftime`). -/
inductive PyVal where
  | none
  | str (s : String)
  | date (y m d : Nat)
deriving Repr, DecidableEq

/-- Zero-pad a numeral to two digits. -/
def pad2 (n : Nat) : String := if n < 10 then "0" ++ toString n else toString n

/-- Zero-pad a numeral to four digits. -/
def pad4 (n : Nat) : String :=
  if n < 10 then "000" ++ toString n
  else if n < 100 then "00" ++ toString n
  else if n < 1000 then "0" ++ toString n
  else toString n

/-- `date.strftime('%Y-%m-%d')`: ISO year-month-day. -/
def isoFmt (y m d : Nat) : String := pad4 y ++ "-" ++ pad2 m ++ "-" ++ pad2 d

/-- Python `str()` on a field value (`str(None) = "None"`, `str` of a date
is its ISO form). -/
def pyStr : PyVal → String
  | .none => "None"
  | .str s => s
  | .date y m d => isoFmt y m d

/-- Python truthiness of a field value. -/
def truthy : PyVal → Bool
  | .none => false
  | .str s => !s.isEmpty
  | .date _ _ _ => true

/-- The input record `data_dict`: an association list of field name to
value (Python dict keys are unique; lookup takes the first binding). -/
def Record := List (String × PyVal)

/-- `k in data_dict`. -/
def containsKey (r : Record) (k : String) : Bool :=
  (r.find? (fun p => p.1 = k)).isSome

/-- `data_dict.get(k)`: the stored value, or `None` when absent. -/
def dictGet (r : Record) (k : String) : PyVal :=
  match r.find? (fun p => p.1 = k) with
  | some p => p.2
  | Option.none => .none

/-- `get_val` (pdf_generator.py lines 156-163): first candidate key that is
present with a value that is not `None` and has non-empty `str(val).strip()`
wins and yields the stripped string; otherwise the default. -/
def get_val (r : Record) : List String → Option String → Option String
  | [], dflt => dflt
  | k :: ks, dflt =>
    if containsKey r k then
      let v := dictGet r k
      if v ≠ PyVal.none ∧ pyStrip (pyStr v) ≠ "" then some (pyStrip (pyStr v))
      else get_val r ks dflt
    else get_val r ks dflt

/-- A candidate key that `get_val` accepts: present, not `None`, and with a
non-empty stripped string form. -/
def goodKey (r : Record) (k : String) : Bool :=
  containsKey r k &&
    (match dictGet r k with
     | PyVal.none => false
     | v => !(pyStrip (pyStr v) == ""))

/-- Python `a or b` on field values (first operand if truthy, else second). -/
def pyOr (a b : PyVal) : PyVal := if truthy a then a else b

/-- The date resolution of `generate_pdf` (pdf_generator.py lines 170-174):
`raw_date = data_dict.get('Tarikh') or data_dict.get('str(Tarikh)') or
data_dict.get('Tarikh Program')`; a date-like value is formatted ISO, else
the value's string form is used when it is truthy with non-empty strip,
else `'-'`. -/
def tarikhOf (r : Record) : String :=
  let raw := pyOr (dictGet r "Tarikh")
    (pyOr (dictGet r "str(Tarikh)") (dictGet r "Tarikh Program"))
  match raw with
  | PyVal.date y m d => isoFmt y m d
  | v => if truthy v ∧ pyStrip (pyStr v) ≠ "" then pyStr v else "-"

/-- The first value among a list of candidates that is truthy. -/
def firstTruthy : List PyVal → Option PyVal
  | [] => Option.none
  | v :: vs => if truthy v then some v else firstTruthy vs

/-- The first candidate key accepted by `get_val`'s criterion, with its
value. -/
def firstGoodVal (r : Record) : List String → Option PyVal
  | [] => Option.none
  | k :: ks => if goodKey r k then some (dictGet r k) else firstGoodVal r ks

/-- Modelled from the claim's words (for refutation): the date field as
claim C5 describes it — candidates `Tarikh` then `Tarikh Program`, first
non-empty trimmed value wins, dates formatted ISO, strings used verbatim,
default `'-'`. -/
def claimTarikh (r : Record) : String :=
  match firstGoodVal r ["Tarikh", "Tarikh Program"] with
  | some (PyVal.date y m d) => isoFmt y m d
  | some (PyVal.str s) => s
  | _ => "-"

/-- Modelled as the amended claim describes the code: the first truthy value
of the three candidate keys `Tarikh`, `str(Tarikh)`, `Tarikh Program` wins;
a date is formatted ISO; a string is used verbatim (untrimmed) when its
trimmed form is non-empty, else `'-'`; `'-'` when no candidate is truthy. -/
def amendedTarikh (r : Record) : String :=
  match firstTruthy [dictGet r "Tarikh", dictGet r "str(Tarikh)",
      dictGet r "Tarikh Program"] with
  | some (PyVal.date y m d) => isoFmt y m d
  | some (PyVal.str s) => if pyStrip s ≠ "" then s else "-"
  | _ => "-"

/-! ## Page-emission model of `generate_pdf` -/

/-- `p.isInfixL t`: the pattern occurs as a contiguous run of the text. -/
def isInfixL (p : List Char) : List Char → Bool
  | [] => p.isEmpty
  | c :: rest => leadEq p (c :: rest) || isInfixL p rest

/-- Python substring test `pat in s`. -/
def pyIn (pat s : String) : Bool := isInfixL pat.data s.data

/-- What ends up drawn in a certificate or letter section body:
successful renders, the three placeholder strings, and the two silent
failure modes (pdf render failure whose boolean result is discarded, and
image render failure, which is always discarded). -/
inductive SecMark where
  | pdfOkM
  | pdfFailPlaceholderM
  | pdfFailSilentM
  | imgOkM
  | imgFailSilentM
  | unsupportedM
  | downloadFailM
deriving Repr, DecidableEq

/-- Whether a section body contains one of the visible placeholder strings
(`[Ralat Memaparkan PDF Sijil]`, `[Format fail tidak disokong]`,
`[Gagal memuat turun ...]`). -/
def hasPlaceholder : SecMark → Bool
  | .pdfFailPlaceholderM => true
  | .unsupportedM => true
  | .downloadFailM => true
  | _ => false

/-- The certificate-section dispatch (pdf_generator.py lines 231-244): pdf
content-type renders page 0 and draws a placeholder when `render_pdf_page`
returns `False`; image content-type calls `render_image` discarding its
result; other content-types and failed downloads draw placeholders. -/
def certContent (res : FetchRes) : SecMark :=
  match res with
  | Option.none => .downloadFailM
  | some (ctype, renders) =>
    if pyIn "application/pdf" ctype then
      if renders then .pdfOkM else .pdfFailPlaceholderM
    else if pyIn "image" ctype then
      if renders then .imgOkM else .imgFailSilentM
    else .unsupportedM

/-- The letter-section dispatch (pdf_generator.py lines 264-273): identical
to the certificate dispatch except that the result of `render_pdf_page` is
discarded, so a pdf that fails to parse/draw leaves no placeholder. -/
def suratContent (res : FetchRes) : SecMark :=
  match res with
  | Option.none => .downloadFailM
  | some (ctype, renders) =>
    if pyIn "application/pdf" ctype then
      if renders then .pdfOkM else .pdfFailSilentM
    else if pyIn "image" ctype then
      if renders then .imgOkM else .imgFailSilentM
    else .unsupportedM

/-- Letter page title: `"SURAT JEMPUTAN"`, suffixed with ` (i+1)` when
there is more than one sub-reference. -/
def suratTitle (n i : Nat) : String :=
  if 1 < n then "SURAT JEMPUTAN" ++ " (" ++ toString (i + 1) ++ ")"
  else "SURAT JEMPUTAN"

/-- The letter sub-references (pdf_generator.py line 256): split on comma
or newline, strip each piece, keep those longer than 5 characters. -/
def suratUrls (s : String) : List String :=
  ((pySplit (fun c => c = ',' || c = '\n') s).map pyStrip).filter
    (fun u => 5 < u.length)

/-- One output page: the info page, the certificate page with its body
mark, a letter page with its title and body mark, or a photo-grid page
with its header. -/
inductive Page where
  | info
  | sijil (m : SecMark)
  | surat (title : String) (m : SecMark)
  | foto (header : String)
deriving Repr, DecidableEq

/-- The title drawn on a letter page, if the page is one. -/
def pageTitle : Page → Option String
  | .surat t _ => some t
  | _ => Option.none

/-- Certificate section pages (pdf_generator.py lines 225-246): one page if
`Sijil_Link`/`Sijil` resolves to a value longer than 5 characters, else
nothing. -/
def sijilPages (net : String → FetchRes) (r : Record) : List Page :=
  match get_val r ["Sijil_Link", "Sijil"] Option.none with
  | some u => if 5 < u.length then [.sijil (certContent (download_file net u))] else []
  | Option.none => []

/-- Number of letter sub-references the code will emit pages for. -/
def suratRefCount (r : Record) : Nat :=
  match get_val r ["Surat_Link", "Surat Jemputan"] Option.none with
  | some s => if 5 < s.length then (suratUrls s).length else 0
  | Option.none => 0

/-- Letter section pages (pdf_generator.py lines 252-275): one page per
kept sub-reference, in order, with ordinal titles when there are several. -/
def suratPagesOf (net : String → FetchRes) (r : Record) : List Page :=
  match get_val r ["Surat_Link", "Surat Jemputan"] Option.none with
  | some s =>
    if 5 < s.length then
      (suratUrls s).enum.map
        (fun iu => .surat (suratTitle (suratUrls s).length iu.1)
          (suratContent (download_file net iu.2)))
    else []
  | Option.none => []

/-- Photo candidate URLs (pdf_generator.py lines 281-288): the values of
`Link_Foto1..Link_Foto4` that are truthy strings whose strip is longer
than 5 characters, stripped. -/
def fotoUrls (r : Record) : List String :=
  ["Link_Foto1", "Link_Foto2", "Link_Foto3", "Link_Foto4"].filterMap
    (fun col =>
      match dictGet r col with
      | PyVal.str s =>
        if !s.isEmpty && 5 < (pyStrip s).length then some (pyStrip s) else Option.none
      | _ => Option.none)

/-- Header of the first photo-grid page. -/
def fotoHdr : String := "LAMPIRAN: GAMBAR AKTIVITI"

/-- Header re-emitted after each in-grid page break (continued marker). -/
def fotoHdrCont : String := "LAMPIRAN: GAMBAR (Sambungan)"

/-- Canvas state of the photo-grid loop: the accepted-image counter
`valid_img_count`, the number of in-loop `showPage` calls, the headers
drawn so far (one per grid page), and every drawn cell as
(page index, row, column, drawn successfully). -/
structure GState where
  count : Nat
  flushes : Nat
  headers : List String
  cells : List (Nat × Nat × Nat × Bool)
deriving Repr, DecidableEq

/-- Grid state when the section header has just been drawn. -/
def initG : GState := ⟨0, 0, [fotoHdr], []⟩

/-- One accepted image (pdf_generator.py lines 306-343): flush to a new
page with the continued header when the counter is a positive multiple of
4, place the image at row `(count % 4) / 2`, column `(count % 4) % 2` of
the current page (blank when decoding fails, which is swallowed), and
increment the counter. -/
def gAccept (st : GState) (renders : Bool) : GState :=
  let st' :=
    if 0 < st.count ∧ st.count % 4 = 0 then
      { st with flushes := st.flushes + 1, headers := st.headers ++ [fotoHdrCont] }
    else st
  let pos := st'.count % 4
  { st' with count := st'.count + 1,
             cells := st'.cells ++ [(st'.flushes, pos / 2, pos % 2, renders)] }

/-- One loop iteration (pdf_generator.py lines 300-304): resources that
failed to download or whose content-type does not contain `image` are
skipped entirely. -/
def gstep (st : GState) (res : FetchRes) : GState :=
  match res with
  | Option.none => st
  | some (ctype, renders) =>
    if pyIn "image" ctype then gAccept st renders else st

/-- The whole photo-grid loop over the downloaded results. -/
def gridRun (rs : List FetchRes) : GState := rs.foldl gstep initG

/-- The accepted subsequence: the render flags of the results that were
downloaded with an image content-type, in order. -/
def acceptedFlags (rs : List FetchRes) : List Bool :=
  rs.filterMap (fun res =>
    match res with
    | Option.none => Option.none
    | some (ctype, renders) =>
      if pyIn "image" ctype then some renders else Option.none)

/-- The cell assigned to each accepted index, counted from `n`:
page `i / 4`, row `(i % 4) / 2`, column `(i % 4) % 2`. -/
def idxCells : Nat → List Bool → List (Nat × Nat × Nat × Bool)
  | _, [] => []
  | n, b :: t => (n / 4, n % 4 / 2, n % 4 % 2, b) :: idxCells (n + 1) t

/-- Number of in-grid page breaks for `k` accepted images. -/
def padPages (k : Nat) : Nat := if k = 0 then 0 else (k - 1) / 4

/-- Photo-grid pages (pdf_generator.py lines 290-345): nothing when no
candidate URL exists; otherwise one page per drawn header (the final
`showPage` seals the last page, so a page is emitted even when no
candidate is accepted). -/
def fotoPagesOf (net : String → FetchRes) (r : Record) : List Page :=
  let urls := fotoUrls r
  if urls.isEmpty then []
  else (gridRun (urls.map (download_file net))).headers.map .foto

/-- The page sequence produced by `generate_pdf` (pdf_generator.py lines
144-349): the info page, then the conditional certificate, letter and
photo-grid sections. -/
def generate_pdf (net : String → FetchRes) (r : Record) : List Page :=
  Page.info :: (sijilPages net r ++ suratPagesOf net r ++ fotoPagesOf net r)

/-! ## Concrete inputs used by counterexamples and witnesses -/

/-- A network oracle on which every fetch fails (unreachable host). -/
def netDown : String → FetchRes := fun _ => Option.none

/-- A network oracle returning a well-formed pdf for every URL. -/
def netPdfGood : String → FetchRes := fun _ => some ("application/pdf", true)

/-- A network oracle returning a pdf whose bytes fail to parse/draw. -/
def netPdfBad : String → FetchRes := fun _ => some ("application/pdf", false)

/-- A network oracle returning a non-image, non-pdf resource. -/
def netHtml : String → FetchRes := fun _ => some ("text/html", true)

/-- Record with only an (unreachable) certificate link. -/
def rCert : Record := [("Sijil_Link", PyVal.str "http://unreachable.example/cert.pdf")]

/-- Record with a single letter link. -/
def rLetter : Record := [("Surat_Link", PyVal.str "http://ex.example/letter.pdf")]

/-- Record with the literal letter link of spec Scenario D. -/
def rUrlAB : Record := [("Surat_Link", PyVal.str "urlA,urlB")]

/-- Record with two letter links that survive the length filter. -/
def rGoodAB : Record :=
  [("Surat_Link", PyVal.str "http://ex.example/a.pdf,http://ex.example/b.pdf")]

/-- Record with one photo link that will resolve to a non-image. -/
def rFotoHtml : Record := [("Link_Foto1", PyVal.str "http://ex.example/notimage")]

/-- Record for claim C4's witness: first name candidate present but
whitespace-only, second candidate present with a padded value. -/
def rAlias : Record :=
  [("Nama Pelajar", PyVal.str "   "), ("Nama", PyVal.str " Ali ")]

/-- Record for claim C5's counterexample: no `Tarikh` key, but the literal
key `str(Tarikh)` and `Tarikh Program` both set. -/
def rTarikh : Record :=
  [("str(Tarikh)", PyVal.str "2020-05-05"), ("Tarikh Program", PyVal.str "2021-06-06")]

/-- The scale-and-centre law of claim C1, stated for source dimensions
`(w, h)`: each of the four drawing paths uses scale
`min(avail_w/src_w, avail_h/src_h)`, drawn dimensions `src*scale`, and places
the content with offset `(avail - drawn)/2` on each axis of its target area
(for `render_image` with `max_h`, the bound must be positive — a zero bound
is Python-falsy and the code falls back to full-page rendering — and the
target area is the vertically centred band of height `max_h`, which is
where the code's final unconditional centering puts the content). -/
def C1Law (w h : ℚ) : Prop :=
  (∃ g, render_pdf_page w h = some g ∧
    g.scale = min ((A4w - 2 * (15 * mmUnit)) / w) ((A4h - 2 * (15 * mmUnit)) / h) ∧
    g.dw = w * g.scale ∧ g.dh = h * g.scale ∧
    g.x - 15 * mmUnit = ((A4w - 2 * (15 * mmUnit)) - g.dw) / 2 ∧
    g.y - 15 * mmUnit = ((A4h - 2 * (15 * mmUnit)) - g.dh) / 2) ∧
  (let g := render_image w h none
   g.scale = min ((A4w - 2 * (20 * mmUnit)) / w) ((A4h - 2 * (20 * mmUnit)) / h) ∧
   g.dw = w * g.scale ∧ g.dh = h * g.scale ∧
   g.x - 20 * mmUnit = ((A4w - 2 * (20 * mmUnit)) - g.dw) / 2 ∧
   g.y - 20 * mmUnit = ((A4h - 2 * (20 * mmUnit)) - g.dh) / 2) ∧
  (∀ max_h : ℚ, 0 < max_h →
   let g := render_image w h (some max_h)
   g.scale = min ((A4w - 2 * (20 * mmUnit)) / w) (max_h / h) ∧
   g.dw = w * g.scale ∧ g.dh = h * g.scale ∧
   g.x - 20 * mmUnit = ((A4w - 2 * (20 * mmUnit)) - g.dw) / 2 ∧
   g.y - (A4h - max_h) / 2 = (max_h - g.dh) / 2) ∧
  (∀ x_pos y_pos : ℚ,
   let g := gridCellDraw x_pos y_pos w h
   g.scale = min ((grid_w - 2 * (5 * mmUnit)) / w) ((grid_h - 2 * (5 * mmUnit)) / h) ∧
   g.dw = w * g.scale ∧ g.dh = h * g.scale ∧
   g.x - (x_pos + 5 * mmUnit) = ((grid_w - 2 * (5 * mmUnit)) - g.dw) / 2 ∧
   g.y - (y_pos + 5 * mmUnit) = ((grid_h - 2 * (5 * mmUnit)) - g.dh) / 2)

/-- C1: for every successfully decoded embedded page or image with positive
source dimensions, every rendering path (`render_pdf_page`, full-page
`render_image`, `render_image` with a `max_h` bound, and the grid-cell
drawing) uses scale `min(avail_w/src_w, avail_h/src_h)`, drawn dimensions
`src*scale`, and centres the content with offset `(avail-drawn)/2` on each
axis of the target area. -/
theorem c1_scale_center_law (w h : ℚ) (hw : 0 < w) (hh : 0 < h) : C1Law w h := by
  have hne : ¬(w = 0 ∨ h = 0) := by
    push_neg
    exact ⟨ne_of_gt hw, ne_of_gt hh⟩
  have center : ∀ A m d : ℚ, (A - d) / 2 - m = ((A - 2 * m) - d) / 2 := by
    intro A m d; ring
  have centerBand : ∀ A m d : ℚ, (A - d) / 2 - (A - m) / 2 = (m - d) / 2 := by
    intro A m d; ring
  have centerCell : ∀ a b : ℚ, a + b - a = b := by
    intro a b; ring
  have hpdf : render_pdf_page w h =
      some ⟨min ((A4w - 2 * (15 * mmUnit)) / w) ((A4h - 2 * (15 * mmUnit)) / h),
        w * min ((A4w - 2 * (15 * mmUnit)) / w) ((A4h - 2 * (15 * mmUnit)) / h),
        h * min ((A4w - 2 * (15 * mmUnit)) / w) ((A4h - 2 * (15 * mmUnit)) / h),
        (A4w - w * min ((A4w - 2 * (15 * mmUnit)) / w) ((A4h - 2 * (15 * mmUnit)) / h)) / 2,
        (A4h - h * min ((A4w - 2 * (15 * mmUnit)) / w) ((A4h - 2 * (15 * mmUnit)) / h)) / 2⟩ := by
    unfold render_pdf_page
    rw [if_neg hne]
  refine ⟨⟨_, hpdf, rfl, rfl, rfl, center A4w (15 * mmUnit) _, center A4h (15 * mmUnit) _⟩,
    ⟨rfl, rfl, rfl, center A4w (20 * mmUnit) _, center A4h (20 * mmUnit) _⟩,
    ?_,
    fun x_pos y_pos => ⟨rfl, rfl, rfl, centerCell (x_pos + 5 * mmUnit) _,
      centerCell (y_pos + 5 * mmUnit) _⟩⟩
  intro max_h hm
  have himg : render_image w h (some max_h) =
      ⟨min ((A4w - 2 * (20 * mmUnit)) / w) (max_h / h),
        w * min ((A4w - 2 * (20 * mmUnit)) / w) (max_h / h),
        h * min ((A4w - 2 * (20 * mmUnit)) / w) (max_h / h),
        (A4w - w * min ((A4w - 2 * (20 * mmUnit)) / w) (max_h / h)) / 2,
        (A4h - h * min ((A4w - 2 * (20 * mmUnit)) / w) (max_h / h)) / 2⟩ := by
    simp only [render_image]
    rw [if_pos (ne_of_gt hm)]
  rw [himg]
  exact ⟨rfl, rfl, rfl, center A4w (20 * mmUnit) _, centerBand A4h max_h _⟩

/-- Witness for C1 at the concrete source dimensions `(w, h) = (2, 3)`. -/
theorem c1_scale_center_law_witness : (0 : ℚ) < 2 ∧ (0 : ℚ) < 3 ∧ C1Law 2 3 :=
  ⟨by norm_num, by norm_num, c1_scale_center_law 2 3 (by norm_num) (by norm_num)⟩

/-! ## Photo-grid loop characterisation -/

/-- Skipped resources are identity steps: folding `gstep` is folding
`gAccept` over the accepted flags. -/
theorem grid_foldl_accept (rs : List FetchRes) (st : GState) :
    rs.foldl gstep st = (acceptedFlags rs).foldl gAccept st := by
  induction rs generalizing st with
  | nil => rfl
  | cons r t ih =>
    rcases r with _ | ⟨ctype, renders⟩
    · simpa [acceptedFlags, List.filterMap_cons, gstep] using ih st
    · by_cases h : pyIn "image" ctype = true
      · simpa [acceptedFlags, List.filterMap_cons, gstep, h] using ih (gAccept st renders)
      · simp only [Bool.not_eq_true] at h
        simpa [acceptedFlags, List.filterMap_cons, gstep, h] using ih st

/-- Appending one accepted flag appends one cell at the next index. -/
theorem idxCells_append (l : List Bool) (n : Nat) (b : Bool) :
    idxCells n (l ++ [b]) =
      idxCells n l ++ [((n + l.length) / 4, (n + l.length) % 4 / 2,
        (n + l.length) % 4 % 2, b)] := by
  induction l generalizing n with
  | nil => simp [idxCells]
  | cons a t ih =>
    simp only [List.cons_append, idxCells, List.length_cons, List.append_eq]
    rw [ih (n + 1)]
    have h : n + 1 + t.length = n + (t.length + 1) := by omega
    rw [h]

/-- `padPages` after one more accepted image. -/
theorem padPages_succ (k : Nat) : padPages (k + 1) = k / 4 := by
  simp [padPages]

/-- Explicit state of the grid loop after `fl` accepted images: the counter
is the number of accepted images, there is one page break per full group of
four after the first, the headers are the section header followed by one
continued header per break, and the i-th accepted image sits at page
`i / 4`, row `(i % 4) / 2`, column `(i % 4) % 2`. -/
theorem gAccept_run (fl : List Bool) :
    fl.foldl gAccept initG =
      ⟨fl.length, padPages fl.length,
        fotoHdr :: List.replicate (padPages fl.length) fotoHdrCont,
        idxCells 0 fl⟩ := by
  induction fl using List.reverseRecOn with
  | nil => rfl
  | append_singleton l b ih =>
    rw [List.foldl_append, ih, idxCells_append]
    simp only [List.foldl_cons, List.foldl_nil, List.length_append,
      List.length_singleton, Nat.zero_add]
    by_cases hc : 0 < l.length ∧ l.length % 4 = 0
    · have hflush : padPages l.length + 1 = l.length / 4 := by
        have h1 : padPages l.length = (l.length - 1) / 4 := by
          rcases hc with ⟨h0, -⟩
          simp [padPages, Nat.pos_iff_ne_zero.mp h0]
        rcases hc with ⟨h0, hm⟩
        omega
      simp only [gAccept, if_pos hc]
      rw [padPages_succ, ← hflush, List.replicate_succ']
      simp only [List.cons_append, GState.mk.injEq, List.append_cancel_left_eq]
    · have hp : padPages l.length = l.length / 4 := by
        rcases Nat.eq_zero_or_pos l.length with h0 | h0
        · simp [padPages, h0]
        · have hm : l.length % 4 ≠ 0 := fun hmm => hc ⟨h0, hmm⟩
          simp only [padPages, if_neg (by omega : ¬l.length = 0)]
          omega
      simp only [gAccept, if_neg hc]
      rw [padPages_succ, ← hp]

/-- The grid loop, characterised over the raw download results. -/
theorem gridRun_spec (rs : List FetchRes) :
    gridRun rs =
      ⟨(acceptedFlags rs).length, padPages (acceptedFlags rs).length,
        fotoHdr :: List.replicate (padPages (acceptedFlags rs).length) fotoHdrCont,
        idxCells 0 (acceptedFlags rs)⟩ := by
  rw [gridRun, grid_foldl_accept, gAccept_run]

/-- `acceptedFlags` distributes over append. -/
theorem acceptedFlags_append (a b : List FetchRes) :
    acceptedFlags (a ++ b) = acceptedFlags a ++ acceptedFlags b :=
  List.filterMap_append a b _

/-- Indexing the canonical cell list. -/
theorem idxCells_get (fl : List Bool) (n i : Nat) :
    (idxCells n fl).get? i =
      (fl.get? i).map (fun b =>
        ((n + i) / 4, (n + i) % 4 / 2, (n + i) % 4 % 2, b)) := by
  induction fl generalizing n i with
  | nil => simp [idxCells]
  | cons a t ih =>
    cases i with
    | zero => simp [idxCells]
    | succ j =>
      simp only [idxCells, List.get?_cons_succ, ih (n + 1) j]
      have h : n + 1 + j = n + (j + 1) := by omega
      rw [h]

/-- C2: for every sequence of photo fetch results, the i-th accepted photo
(0-based, across the whole accepted sequence) is drawn at grid page
`i / 4`, row `(i % 4) / 2`, column `(i % 4) % 2`; the section header is
drawn once and a continued header is re-emitted at every in-grid page
break, of which there is one exactly at each accepted index `i > 0` with
`i % 4 = 0` (so `padPages` many in total); in particular ten accepted
photos land on pages `[0,0,0,0,1,1,1,1,2,2]`. -/
theorem c2_grid_index_law :
    (∀ rs : List FetchRes,
      (gridRun rs).cells = idxCells 0 (acceptedFlags rs) ∧
      (gridRun rs).headers =
        fotoHdr :: List.replicate (padPages (acceptedFlags rs).length) fotoHdrCont ∧
      (gridRun rs).flushes = padPages (acceptedFlags rs).length) ∧
    (gridRun (List.replicate 10 (some ("image/jpeg", true)))).cells.map
        (fun c => c.1) = [0, 0, 0, 0, 1, 1, 1, 1, 2, 2] := by
  refine ⟨fun rs => ?_, by decide⟩
  rw [gridRun_spec rs]
  exact ⟨rfl, rfl, rfl⟩

/-- C9 counterexample: a record with one non-empty photo column whose
resource downloads with a non-image content-type has zero accepted photos,
yet the photo section still emits one (header-only) page, not the zero
pages the claim's `ceil(accepted/4)` law predicts. -/
theorem c9_counterexample :
    (acceptedFlags ((fotoUrls rFotoHtml).map (download_file netHtml))).length = 0 ∧
    (fotoPagesOf netHtml rFotoHtml).length = 1 ∧
    (fotoPagesOf netHtml rFotoHtml).length ≠ 0 := by decide

/-- C9 (amended): at most 4 photo links can be supplied (columns
`Link_Foto1..4`), so a 5-link scenario cannot arise; the photo section
emits 0 pages when no candidate link is present, exactly 1 header-only
page when candidates exist but none is accepted, and `ceil(k/4)` pages for
`k ≥ 1` accepted photos. -/
theorem c9_amended (net : String → FetchRes) (r : Record) :
    (fotoUrls r).length ≤ 4 ∧
    (acceptedFlags ((fotoUrls r).map (download_file net))).length ≤
      (fotoUrls r).length ∧
    (fotoPagesOf net r).length =
      (if (fotoUrls r).isEmpty then 0
       else if (acceptedFlags ((fotoUrls r).map (download_file net))).length = 0
       then 1
       else ((acceptedFlags ((fotoUrls r).map (download_file net))).length + 3) / 4) := by
  refine ⟨?_, ?_, ?_⟩
  · exact List.length_filterMap_le _ _
  · calc (acceptedFlags ((fotoUrls r).map (download_file net))).length
        ≤ ((fotoUrls r).map (download_file net)).length :=
          List.length_filterMap_le _ _
      _ = (fotoUrls r).length := List.length_map _ _
  · unfold fotoPagesOf
    by_cases he : (fotoUrls r).isEmpty
    · simp [he]
    · simp only [he, if_false, Bool.false_eq_true]
      rw [gridRun_spec]
      simp only [List.map_cons, List.length_cons, List.length_map,
        List.length_replicate]
      set k := (acceptedFlags ((fotoUrls r).map (download_file net))).length with hk
      rcases Nat.eq_zero_or_pos k with h0 | h0
      · simp [h0, padPages]
      · have : padPages k = (k - 1) / 4 := by
          simp [padPages, Nat.pos_iff_ne_zero.mp h0]
        rw [this]
        have hne : ¬k = 0 := Nat.pos_iff_ne_zero.mp h0
        simp only [hne, if_false]
        omega

/-- C10: in the photo grid, a resource that is skipped (download failure or
non-image content-type) leaves the grid state untouched and consumes no
cell, while a resource downloaded with an image content-type whose bytes
fail to decode still consumes its grid cell: it is recorded (blank) at the
accepted index following the accepted photos before it, and the counter
that drives 4-per-page pagination still advances past it. -/
theorem c10_decode_failure_consumes_cell
    (pre post : List FetchRes) (ctype : String) :
    (∀ renders : Bool, pyIn "image" ctype = false →
      gridRun (pre ++ some (ctype, renders) :: post) = gridRun (pre ++ post)) ∧
    (gridRun (pre ++ Option.none :: post) = gridRun (pre ++ post)) ∧
    (pyIn "image" ctype = true →
      (gridRun (pre ++ some (ctype, false) :: post)).cells.get?
          (acceptedFlags pre).length =
        some ((acceptedFlags pre).length / 4,
          (acceptedFlags pre).length % 4 / 2,
          (acceptedFlags pre).length % 4 % 2, false) ∧
      (gridRun (pre ++ some (ctype, false) :: post)).count =
        (acceptedFlags pre).length + 1 + (acceptedFlags post).length) := by
  have hmid : ∀ x : FetchRes, acceptedFlags (pre ++ x :: post) =
      acceptedFlags pre ++ acceptedFlags [x] ++ acceptedFlags post := by
    intro x
    rw [show pre ++ x :: post = pre ++ [x] ++ post by simp]
    rw [acceptedFlags_append, acceptedFlags_append]
  refine ⟨?_, ?_, ?_⟩
  · intro renders h
    rw [gridRun_spec, gridRun_spec, hmid, acceptedFlags_append]
    simp [acceptedFlags, List.filterMap_cons, h]
  · rw [gridRun_spec, gridRun_spec, hmid, acceptedFlags_append]
    simp [acceptedFlags, List.filterMap_cons]
  · intro h
    have hm : acceptedFlags (pre ++ some (ctype, false) :: post) =
        acceptedFlags pre ++ false :: acceptedFlags post := by
      rw [hmid]
      simp [acceptedFlags, List.filterMap_cons, h]
    constructor
    · rw [gridRun_spec, hm]
      simp only
      rw [idxCells_get]
      rw [List.get?_append_right (le_refl _)]
      simp
    · rw [gridRun_spec, hm]
      simp only
      rw [List.length_append, List.length_cons]
      omega

/-- Witness for C10 at a one-element list: an image-typed resource that
fails to decode occupies cell 0 of page 0, drawn blank. -/
theorem c10_witness :
    pyIn "image" "image/png" = true ∧
    (gridRun [some ("image/png", false)]).cells.get? 0 =
      some (0, 0, 0, false) ∧
    (gridRun [some ("image/png", false)]).count = 1 :=
  ⟨by decide,
    ((c10_decode_failure_consumes_cell [] [] "image/png").2.2 (by decide)).1,
    ((c10_decode_failure_consumes_cell [] [] "image/png").2.2 (by decide)).2⟩

/-! ## Certificate and letter sections -/

/-- C7: for every record whose certificate link resolves to a value longer
than 5 characters but whose download fails (unreachable host: transport
error or non-200 status gives the sentinel `none`), and which has no letter
field and no photo candidates, `generate_pdf` returns normally with exactly
2 pages, the second being the certificate page carrying the visible
download-failure placeholder. -/
theorem c7_unreachable_certificate
    (net : String → FetchRes) (r : Record) (u : String)
    (h1 : get_val r ["Sijil_Link", "Sijil"] Option.none = some u)
    (h2 : 5 < u.length)
    (h3 : download_file net u = Option.none)
    (h4 : get_val r ["Surat_Link", "Surat Jemputan"] Option.none = Option.none)
    (h5 : fotoUrls r = []) :
    generate_pdf net r = [Page.info, Page.sijil SecMark.downloadFailM] ∧
    (generate_pdf net r).length = 2 ∧
    hasPlaceholder SecMark.downloadFailM = true := by
  have hs : sijilPages net r = [Page.sijil SecMark.downloadFailM] := by
    simp [sijilPages, h1, h2, h3, certContent]
  have hsu : suratPagesOf net r = [] := by
    simp [suratPagesOf, h4]
  have hfo : fotoPagesOf net r = [] := by
    simp [fotoPagesOf, h5]
  refine ⟨?_, ?_, rfl⟩ <;> simp [generate_pdf, hs, hsu, hfo]

/-- Witness for C7: the concrete record `rCert` with every fetch failing. -/
theorem c7_witness :
    get_val rCert ["Sijil_Link", "Sijil"] Option.none =
      some "http://unreachable.example/cert.pdf" ∧
    download_file netDown "http://unreachable.example/cert.pdf" = Option.none ∧
    generate_pdf netDown rCert = [Page.info, Page.sijil SecMark.downloadFailM] :=
  ⟨by decide, by decide,
    (c7_unreachable_certificate netDown rCert "http://unreachable.example/cert.pdf"
      (by decide) (by decide) (by decide) (by decide) (by decide)).1⟩

/-- C6 counterexample: a letter resource downloaded with pdf content-type
whose bytes fail to parse/draw yields a letter page with no placeholder
(the boolean result of `render_pdf_page` is discarded on the letter path),
while the claim-asserted certificate-identical processing would have drawn
one. -/
theorem c6_counterexample :
    generate_pdf netPdfBad rLetter =
      [Page.info, Page.surat "SURAT JEMPUTAN" SecMark.pdfFailSilentM] ∧
    hasPlaceholder SecMark.pdfFailSilentM = false ∧
    certContent (some ("application/pdf", false)) = SecMark.pdfFailPlaceholderM ∧
    suratContent (some ("application/pdf", false)) = SecMark.pdfFailSilentM := by
  decide

/-- C6 (amended): each letter sub-reference gets its own page, and the
letter dispatch agrees with the certificate dispatch on every fetch result
except a pdf that fails to parse/draw: there the certificate section draws
the visible placeholder while the letter section silently leaves the page
without one; no failure escapes either dispatch (both are total). -/
theorem c6_amended :
    (∀ res : FetchRes,
      suratContent res = certContent res ∨
        (suratContent res = SecMark.pdfFailSilentM ∧
          certContent res = SecMark.pdfFailPlaceholderM)) ∧
    hasPlaceholder SecMark.downloadFailM = true ∧
    hasPlaceholder SecMark.unsupportedM = true ∧
    hasPlaceholder SecMark.pdfFailSilentM = false ∧
    (∀ (net : String → FetchRes) (r : Record),
      (suratPagesOf net r).length = suratRefCount r) := by
  refine ⟨?_, rfl, rfl, rfl, ?_⟩
  · intro res
    rcases res with _ | ⟨ctype, renders⟩
    · exact Or.inl rfl
    · simp only [suratContent, certContent]
      split_ifs <;> simp
  · intro net r
    unfold suratPagesOf suratRefCount
    rcases h : get_val r ["Surat_Link", "Surat Jemputan"] Option.none with _ | s
    · rfl
    · by_cases hl : 5 < s.length <;> simp [hl]

/-- C8 counterexample: the literal Scenario D input `"urlA,urlB"` passes
the whole-field length guard but both comma-separated pieces have length
4 ≤ 5, so the filter drops them and zero letter pages are emitted, not the
claimed two. -/
theorem c8_counterexample :
    suratUrls "urlA,urlB" = [] ∧
    generate_pdf netPdfGood rUrlAB = [Page.info] ∧
    (suratPagesOf netPdfGood rUrlAB).length = 0 ∧
    (suratPagesOf netPdfGood rUrlAB).length ≠ 2 := by decide

/-- C8 (amended): the letter section emits exactly one page per
sub-reference that survives the split-strip-filter (trimmed length > 5),
with titles carrying 1-based ordinal suffixes exactly when more than one
survives; two sufficiently long comma-separated URLs do produce two pages
titled `(1)` and `(2)`. -/
theorem c8_amended :
    (∀ (net : String → FetchRes) (r : Record),
      (suratPagesOf net r).length = suratRefCount r ∧
      (suratPagesOf net r).map pageTitle =
        (List.range (suratRefCount r)).map
          (fun i => some (suratTitle (suratRefCount r) i))) ∧
    generate_pdf netPdfGood rGoodAB =
      [Page.info, Page.surat "SURAT JEMPUTAN (1)" SecMark.pdfOkM,
        Page.surat "SURAT JEMPUTAN (2)" SecMark.pdfOkM] := by
  refine ⟨?_, by decide⟩
  intro net r
  unfold suratPagesOf suratRefCount
  rcases h : get_val r ["Surat_Link", "Surat Jemputan"] Option.none with _ | s
  · exact ⟨rfl, rfl⟩
  · by_cases hl : 5 < s.length
    · refine ⟨by simp [hl], ?_⟩
      simp only [hl, if_true]
      rw [List.map_map, ← List.enum_map_fst (suratUrls s), List.map_map]
      rfl
    · simp [hl]


/-! ## URL shape recognition -/

/-- A matched pattern is no longer than the text. -/
theorem leadEq_length {p t : List Char} (h : leadEq p t = true) :
    p.length ≤ t.length := by
  induction p generalizing t with
  | nil => simp
  | cons a ps ih =>
    cases t with
    | nil => simp [leadEq] at h
    | cons c cs =>
      simp only [leadEq, Bool.and_eq_true] at h
      have := ih h.2
      simp only [List.length_cons]
      omega

/-- A non-empty character list makes a non-empty string. -/
theorem mk_ne_empty (l : List Char) (h : l ≠ []) : String.mk l ≠ "" := by
  intro hc
  apply h
  have := congrArg String.data hc
  simpa using this

/-- Where the path-segment shape occurs, the first regex search succeeds
with a non-empty capture. -/
theorem searchFileD_of_shape : ∀ {l : List Char}, hasShape1 l = true →
    ∃ run, searchFileD l = some run ∧ run ≠ [] := by
  intro l
  induction l with
  | nil => intro h; simp [hasShape1] at h
  | cons c rest ih =>
    intro h
    have hstep : hasShape1 (c :: rest) =
        ((leadEq "/file/d/".data (c :: rest) &&
          !(((c :: rest).drop 8).takeWhile idChar).isEmpty) || hasShape1 rest) := rfl
    have estep : searchFileD (c :: rest) =
        (if leadEq "/file/d/".data (c :: rest) then
          (if (((c :: rest).drop 8).takeWhile idChar).isEmpty then searchFileD rest
            else some (((c :: rest).drop 8).takeWhile idChar))
          else searchFileD rest) := rfl
    rw [hstep] at h
    cases hl : leadEq "/file/d/".data (c :: rest) with
    | true =>
      cases hr : (((c :: rest).drop 8).takeWhile idChar).isEmpty with
      | true =>
        rw [hl, hr] at h
        simp only [Bool.not_true, Bool.and_false, Bool.false_or] at h
        obtain ⟨run, hs, hne⟩ := ih h
        refine ⟨run, ?_, hne⟩
        rw [estep, if_pos hl, if_pos hr]
        exact hs
      | false =>
        refine ⟨((c :: rest).drop 8).takeWhile idChar, ?_, ?_⟩
        · rw [estep, if_pos hl, if_neg (by rw [hr]; exact Bool.false_ne_true)]
        · intro hc
          rw [hc] at hr
          simp at hr
    | false =>
      rw [hl] at h
      simp only [Bool.false_and, Bool.false_or] at h
      obtain ⟨run, hs, hne⟩ := ih h
      refine ⟨run, ?_, hne⟩
      rw [estep, if_neg (by rw [hl]; exact Bool.false_ne_true)]
      exact hs

/-- Where the path-segment shape is absent, the first search fails. -/
theorem searchFileD_none : ∀ {l : List Char}, hasShape1 l = false →
    searchFileD l = none := by
  intro l
  induction l with
  | nil => intro _; rfl
  | cons c rest ih =>
    intro h
    have hstep : hasShape1 (c :: rest) =
        ((leadEq "/file/d/".data (c :: rest) &&
          !(((c :: rest).drop 8).takeWhile idChar).isEmpty) || hasShape1 rest) := rfl
    have estep : searchFileD (c :: rest) =
        (if leadEq "/file/d/".data (c :: rest) then
          (if (((c :: rest).drop 8).takeWhile idChar).isEmpty then searchFileD rest
            else some (((c :: rest).drop 8).takeWhile idChar))
          else searchFileD rest) := rfl
    rw [hstep] at h
    cases hl : leadEq "/file/d/".data (c :: rest) with
    | true =>
      cases hr : (((c :: rest).drop 8).takeWhile idChar).isEmpty with
      | true =>
        rw [hl, hr] at h
        simp only [Bool.not_true, Bool.and_false, Bool.false_or] at h
        rw [estep, if_pos hl, if_pos hr]
        exact ih h
      | false =>
        rw [hl, hr] at h
        simp at h
    | false =>
      rw [hl] at h
      simp only [Bool.false_and, Bool.false_or] at h
      rw [estep, if_neg (by rw [hl]; exact Bool.false_ne_true)]
      exact ih h

/-- The path-segment shape needs at least the 8 pattern characters. -/
theorem shape1_length : ∀ {l : List Char}, hasShape1 l = true →
    5 ≤ l.length := by
  intro l
  induction l with
  | nil => intro h; simp [hasShape1] at h
  | cons c rest ih =>
    intro h
    have hstep : hasShape1 (c :: rest) =
        ((leadEq "/file/d/".data (c :: rest) &&
          !(((c :: rest).drop 8).takeWhile idChar).isEmpty) || hasShape1 rest) := rfl
    rw [hstep] at h
    cases hl : leadEq "/file/d/".data (c :: rest) with
    | true =>
      have h8 := leadEq_length hl
      rw [show ("/file/d/".data).length = 8 from rfl] at h8
      omega
    | false =>
      rw [hl] at h
      simp only [Bool.false_and, Bool.false_or] at h
      have := ih h
      simp only [List.length_cons]
      omega

/-- Where the query shape occurs, the second regex search succeeds with a
non-empty capture. -/
theorem searchIdQ_of_shape : ∀ {l : List Char}, hasShape2 l = true →
    ∃ run, searchIdQ l = some run ∧ run ≠ [] := by
  intro l
  induction l with
  | nil => intro h; simp [hasShape2] at h
  | cons c rest ih =>
    intro h
    have hstep : hasShape2 (c :: rest) =
        (((decide (c = '?') || decide (c = '&')) && leadEq "id=".data rest &&
          !((rest.drop 3).takeWhile idChar).isEmpty) || hasShape2 rest) := rfl
    have estep : searchIdQ (c :: rest) =
        (if (decide (c = '?') || decide (c = '&')) && leadEq "id=".data rest then
          (if ((rest.drop 3).takeWhile idChar).isEmpty then searchIdQ rest
            else some ((rest.drop 3).takeWhile idChar))
          else searchIdQ rest) := rfl
    rw [hstep] at h
    cases hq : (decide (c = '?') || decide (c = '&')) && leadEq "id=".data rest with
    | true =>
      cases hr : ((rest.drop 3).takeWhile idChar).isEmpty with
      | true =>
        rw [hq, hr] at h
        simp only [Bool.not_true, Bool.and_false, Bool.false_or] at h
        obtain ⟨run, hs, hne⟩ := ih h
        refine ⟨run, ?_, hne⟩
        rw [estep, if_pos hq, if_pos hr]
        exact hs
      | false =>
        refine ⟨(rest.drop 3).takeWhile idChar, ?_, ?_⟩
        · rw [estep, if_pos hq, if_neg (by rw [hr]; exact Bool.false_ne_true)]
        · intro hc
          rw [hc] at hr
          simp at hr
    | false =>
      rw [hq] at h
      simp only [Bool.false_and, Bool.false_or] at h
      obtain ⟨run, hs, hne⟩ := ih h
      refine ⟨run, ?_, hne⟩
      rw [estep, if_neg (by rw [hq]; exact Bool.false_ne_true)]
      exact hs

/-- Where the query shape is absent, the second search fails. -/
theorem searchIdQ_none : ∀ {l : List Char}, hasShape2 l = false →
    searchIdQ l = none := by
  intro l
  induction l with
  | nil => intro _; rfl
  | cons c rest ih =>
    intro h
    have hstep : hasShape2 (c :: rest) =
        (((decide (c = '?') || decide (c = '&')) && leadEq "id=".data rest &&
          !((rest.drop 3).takeWhile idChar).isEmpty) || hasShape2 rest) := rfl
    have estep : searchIdQ (c :: rest) =
        (if (decide (c = '?') || decide (c = '&')) && leadEq "id=".data rest then
          (if ((rest.drop 3).takeWhile idChar).isEmpty then searchIdQ rest
            else some ((rest.drop 3).takeWhile idChar))
          else searchIdQ rest) := rfl
    rw [hstep] at h
    cases hq : (decide (c = '?') || decide (c = '&')) && leadEq "id=".data rest with
    | true =>
      cases hr : ((rest.drop 3).takeWhile idChar).isEmpty with
      | true =>
        rw [hq, hr] at h
        simp only [Bool.not_true, Bool.and_false, Bool.false_or] at h
        rw [estep, if_pos hq, if_pos hr]
        exact ih h
      | false =>
        rw [hq, hr] at h
        simp at h
    | false =>
      rw [hq] at h
      simp only [Bool.false_and, Bool.false_or] at h
      rw [estep, if_neg (by rw [hq]; exact Bool.false_ne_true)]
      exact ih h

/-- The query shape needs the marker, `id=` and one id character. -/
theorem shape2_length : ∀ {l : List Char}, hasShape2 l = true →
    5 ≤ l.length := by
  intro l
  induction l with
  | nil => intro h; simp [hasShape2] at h
  | cons c rest ih =>
    intro h
    have hstep : hasShape2 (c :: rest) =
        (((decide (c = '?') || decide (c = '&')) && leadEq "id=".data rest &&
          !((rest.drop 3).takeWhile idChar).isEmpty) || hasShape2 rest) := rfl
    rw [hstep] at h
    cases hq : (decide (c = '?') || decide (c = '&')) && leadEq "id=".data rest with
    | true =>
      cases hr : ((rest.drop 3).takeWhile idChar).isEmpty with
      | true =>
        rw [hq, hr] at h
        simp only [Bool.not_true, Bool.and_false, Bool.false_or] at h
        have := ih h
        simp only [List.length_cons]
        omega
      | false =>
        by_cases hd : rest.drop 3 = []
        · rw [hd] at hr
          simp at hr
        · have h3 : ¬rest.length ≤ 3 := by
            intro hle
            exact hd (List.drop_eq_nil_of_le hle)
          simp only [List.length_cons]
          omega
    | false =>
      rw [hq] at h
      simp only [Bool.false_and, Bool.false_or] at h
      have := ih h
      simp only [List.length_cons]
      omega

/-- C3 counterexample: the reference `"abcd"` matches neither recognized
URL shape, yet it is not fetched verbatim — the fetcher's minimum-length
guard short-circuits to the missing sentinel without any fetch. -/
theorem c3_counterexample :
    (hasShape1 "abcd".data || hasShape2 "abcd".data) = false ∧
    download_target "abcd" = Option.none ∧
    download_target "abcd" ≠ some "abcd" := by decide

/-- C3 (amended): a reference matching either recognized shape yields a
non-empty extracted identifier and is fetched at the canonical
direct-download template embedding exactly that identifier; a reference
matching neither shape is fetched verbatim provided it passes the
minimum-length guard (length ≥ 5); shorter references are not fetched at
all and produce the missing sentinel. -/
theorem c3_id_extraction (url : String) :
    ((hasShape1 url.data || hasShape2 url.data) = true →
      ∃ fid, extract_drive_id url = some fid ∧ fid ≠ "" ∧
        download_target url = some (driveTemplate fid)) ∧
    ((hasShape1 url.data || hasShape2 url.data) = false → 5 ≤ url.length →
      download_target url = some url) ∧
    (url.length < 5 → download_target url = Option.none) := by
  refine ⟨?_, ?_, ?_⟩
  · intro h
    have hlen : 5 ≤ url.length := by
      rcases (Bool.or_eq_true _ _).mp h with h1 | h2
      · exact shape1_length h1
      · exact shape2_length h2
    cases ho : hasShape1 url.data with
    | true =>
      obtain ⟨run, hs, hne⟩ := searchFileD_of_shape ho
      refine ⟨String.mk run, ?_, mk_ne_empty run hne, ?_⟩
      · unfold extract_drive_id
        rw [hs]
      · unfold download_target
        rw [if_neg (by omega)]
        unfold extract_drive_id
        rw [hs]
    | false =>
      have h2 : hasShape2 url.data = true := by
        rw [ho] at h
        simpa using h
      have hs1 : searchFileD url.data = none := searchFileD_none ho
      obtain ⟨run, hs, hne⟩ := searchIdQ_of_shape h2
      refine ⟨String.mk run, ?_, mk_ne_empty run hne, ?_⟩
      · unfold extract_drive_id
        rw [hs1, hs]
      · unfold download_target
        rw [if_neg (by omega)]
        unfold extract_drive_id
        rw [hs1, hs]
  · intro h h5
    have h1 : hasShape1 url.data = false := by
      rcases Bool.or_eq_false_iff.mp h with ⟨h1, -⟩
      exact h1
    have h2 : hasShape2 url.data = false := by
      rcases Bool.or_eq_false_iff.mp h with ⟨-, h2⟩
      exact h2
    unfold download_target
    rw [if_neg (by omega)]
    unfold extract_drive_id
    rw [searchFileD_none h1, searchIdQ_none h2]
  · intro h
    unfold download_target
    rw [if_pos h]

/-- Witness for C3 at a concrete Drive share URL: the id `abc123` is
extracted and the fetch goes to the download template carrying it. -/
theorem c3_id_extraction_witness :
    (hasShape1 "https://drive.google.com/file/d/abc123/view".data ||
      hasShape2 "https://drive.google.com/file/d/abc123/view".data) = true ∧
    (∃ fid, extract_drive_id "https://drive.google.com/file/d/abc123/view" =
        some fid ∧ fid ≠ "" ∧
      download_target "https://drive.google.com/file/d/abc123/view" =
        some (driveTemplate fid)) :=
  ⟨by decide,
    (c3_id_extraction "https://drive.google.com/file/d/abc123/view").1 (by decide)⟩

/-! ## Field alias resolution and the date field -/

/-- Definitional unfolding of `get_val` on a cons cell. -/
theorem get_val_cons (r : Record) (k : String) (ks : List String)
    (dflt : Option String) :
    get_val r (k :: ks) dflt =
      if containsKey r k then
        (if dictGet r k ≠ PyVal.none ∧ pyStrip (pyStr (dictGet r k)) ≠ ""
          then some (pyStrip (pyStr (dictGet r k)))
          else get_val r ks dflt)
      else get_val r ks dflt := rfl

/-- A good candidate makes `get_val` return its stripped string form. -/
theorem get_val_cons_good (r : Record) (k : String) (ks : List String)
    (dflt : Option String) (h : goodKey r k = true) :
    get_val r (k :: ks) dflt = some (pyStrip (pyStr (dictGet r k))) := by
  unfold goodKey at h
  rw [Bool.and_eq_true] at h
  obtain ⟨hckey, hval⟩ := h
  have hcond : dictGet r k ≠ PyVal.none ∧ pyStrip (pyStr (dictGet r k)) ≠ "" := by
    rcases hv : dictGet r k with _ | s | ⟨y, m, d⟩
    · rw [hv] at hval
      simp at hval
    · rw [hv] at hval
      exact ⟨by simp, by simpa using hval⟩
    · rw [hv] at hval
      exact ⟨by simp, by simpa using hval⟩
  rw [get_val_cons, if_pos hckey, if_pos hcond]

/-- A bad candidate is skipped by `get_val`. -/
theorem get_val_cons_bad (r : Record) (k : String) (ks : List String)
    (dflt : Option String) (h : goodKey r k = false) :
    get_val r (k :: ks) dflt = get_val r ks dflt := by
  unfold goodKey at h
  rw [get_val_cons]
  cases hckey : containsKey r k with
  | false => rw [if_neg Bool.false_ne_true]
  | true =>
    rw [hckey, Bool.true_and] at h
    have hcond : ¬(dictGet r k ≠ PyVal.none ∧ pyStrip (pyStr (dictGet r k)) ≠ "") := by
      rintro ⟨hne, hstr⟩
      rcases hv : dictGet r k with _ | s | ⟨y, m, d⟩
      · exact hne hv
      · rw [hv] at h hstr
        exact hstr (by simpa using h)
      · rw [hv] at h hstr
        exact hstr (by simpa using h)
    rw [if_pos rfl, if_neg hcond]

/-- C4: alias resolution returns the stripped value of the first candidate
key that is present with a value whose stripped string form is non-empty
(skipping `None` values), and returns the literal default `"-"` when no
candidate qualifies. -/
theorem c4_alias_resolution :
    (∀ (r : Record) (ks1 : List String) (k : String) (ks2 : List String),
      (∀ k', k' ∈ ks1 → goodKey r k' = false) → goodKey r k = true →
      get_val r (ks1 ++ k :: ks2) (some "-") =
        some (pyStrip (pyStr (dictGet r k)))) ∧
    (∀ (r : Record) (keys : List String),
      (∀ k', k' ∈ keys → goodKey r k' = false) →
      get_val r keys (some "-") = some "-") := by
  constructor
  · intro r ks1 k ks2 hbad hgood
    induction ks1 with
    | nil => exact get_val_cons_good r k ks2 (some "-") hgood
    | cons k' t ih =>
      rw [List.cons_append,
        get_val_cons_bad r k' (t ++ k :: ks2) (some "-") (hbad k' (by simp))]
      exact ih (fun k'' hk'' => hbad k'' (by simp [hk'']))
  · intro r keys hbad
    induction keys with
    | nil => rfl
    | cons k t ih =>
      rw [get_val_cons_bad r k t (some "-") (hbad k (by simp))]
      exact ih (fun k'' hk'' => hbad k'' (by simp [hk'']))

/-- Witness for C4: on `rAlias` the first candidate (`Nama Pelajar`,
whitespace-only) is skipped and the second (`Nama`) wins, stripped. -/
theorem c4_alias_resolution_witness :
    (∀ k', k' ∈ ["Nama Pelajar"] → goodKey rAlias k' = false) ∧
    goodKey rAlias "Nama" = true ∧
    get_val rAlias (["Nama Pelajar"] ++ "Nama" :: []) (some "-") =
      some (pyStrip (pyStr (dictGet rAlias "Nama"))) :=
  ⟨by decide, by decide,
    c4_alias_resolution.1 rAlias ["Nama Pelajar"] "Nama" [] (by decide) (by decide)⟩

/-- C5 counterexample: with `Tarikh` absent, the literal key `str(Tarikh)`
set to one date string and `Tarikh Program` to another, the code returns
the `str(Tarikh)` value — the claim's two-candidate resolution
(`Tarikh`, then `Tarikh Program`) would return the other. -/
theorem c5_counterexample :
    tarikhOf rTarikh = "2020-05-05" ∧
    claimTarikh rTarikh = "2021-06-06" ∧
    tarikhOf rTarikh ≠ claimTarikh rTarikh := by decide

/-- C5 (amended): the date is resolved by a Python-truthiness `or`-chain
over the three candidate keys `Tarikh`, `str(Tarikh)`, `Tarikh Program`
(so a whitespace-only string wins and then collapses to `"-"`); a winning
date-like value is formatted ISO year-month-day; a winning string is used
verbatim (untrimmed) when its strip is non-empty, else `"-"`; `"-"` when
no candidate is truthy. -/
theorem c5_date_resolution (r : Record) : tarikhOf r = amendedTarikh r := by
  unfold tarikhOf amendedTarikh pyOr firstTruthy
  rcases h1 : dictGet r "Tarikh" with _ | s1 | ⟨y1, m1, d1⟩ <;>
    rcases h2 : dictGet r "str(Tarikh)" with _ | s2 | ⟨y2, m2, d2⟩ <;>
      rcases h3 : dictGet r "Tarikh Program" with _ | s3 | ⟨y3, m3, d3⟩ <;>
        simp only [truthy, pyStr] <;>
          split_ifs <;>
            simp_all [truthy, pyStr, firstTruthy] <;>
              split_ifs <;>
                simp_all
